import Mathlib

/-!
Verification development for the asynchronous image downloader
(source file 异步高速下载训练图片集.py).

The Python program is shallowly embedded: pure computations become Lean
functions, the filesystem and the network are passed explicitly as values
(a directory is a list of files, the network is an oracle mapping the
attempt number to an outcome), and machine integers are modelled as
Int and Nat.  Python float division inside process_image is modelled by
exact rational arithmetic.

Note: the source defines download_image twice; the second definition
shadows the first, so the second one is the effective function and is the
one embedded here.
-/

/-- Python str.startswith: the list of characters of the candidate
begins with the characters of the pattern. -/
def strStartsWith (s p : String) : Bool :=
  s.data.take p.data.length = p.data

/-- Python str.endswith: the list of characters of the candidate
ends with the characters of the pattern. -/
def strEndsWith (s p : String) : Bool :=
  s.data.drop (s.data.length - p.data.length) = p.data

/-- Runtime configuration, translated from Config.__init__.
The HTTP request headers are carried verbatim by the program and never
inspected by the logic modelled here, so they are omitted. -/
structure Config where
  keyword : String
  target_folder : String
  min_file_size : Int
  target_width : Int
  target_height : Int
  max_pages : Int
  target_format : String
  skip_domains : List String
deriving Repr, DecidableEq

/-- The defaults assigned in Config.__init__. -/
def defaultConfig : Config :=
  { keyword := "orange"
    target_folder := "train_data"
    min_file_size := 2 * 1024
    target_width := 200
    target_height := 200
    max_pages := 1
    target_format := "jpg"
    skip_domains := ["wallpaperflare.com", "healthjade.com", "specialtyproduce.com"] }

/-- The argparse result object consumed by Config.update_from_args.
Flags without an argparse default parse to None when absent, modelled by
Option; target_folder and max_pages carry argparse defaults, so the
attribute always exists and always holds a value. -/
structure Args where
  keyword : Option String
  min_file_size : Option Int
  target_width : Option Int
  target_height : Option Int
  max_pages : Int
  target_folder : String
deriving Repr, DecidableEq

/-- Python truthiness of an optional string: None and the empty string
are falsy. -/
def truthyStr : Option String → Bool
  | none => false
  | some s => s ≠ ""

/-- Python truthiness of an optional integer: None and 0 are falsy. -/
def truthyInt : Option Int → Bool
  | none => false
  | some v => v ≠ 0

/-- Translation of Config.update_from_args.  Each `if args.x:` guard is
Python truthiness; the hasattr guards for target_folder and max_pages are
always true because argparse defines those attributes with defaults. -/
def Config.update_from_args (c : Config) (a : Args) : Config :=
  let c := if truthyStr a.keyword then { c with keyword := a.keyword.getD c.keyword } else c
  let c := { c with target_folder := a.target_folder }
  let c := if truthyInt a.min_file_size then
    { c with min_file_size := a.min_file_size.getD 0 * 1024 } else c
  let c := if truthyInt a.target_width then
    { c with target_width := a.target_width.getD 0 } else c
  let c := if truthyInt a.target_height then
    { c with target_height := a.target_height.getD 0 } else c
  { c with max_pages := a.max_pages }

/-- A URL together with the components urlparse extracts from it.
raw is the full string; netloc and path are the corresponding urlparse
fields of raw. -/
structure Url where
  raw : String
  netloc : String
  path : String
deriving Repr, DecidableEq

/-- Translation of should_skip: a URL is skipped when it starts with
the literal data:image/ or when its host ends with one of the configured
skip-domain suffixes.  The ValueError handler of the source concerns
unparsable URLs, which cannot arise for an already-parsed Url value. -/
def should_skip (url : Url) (config : Config) : Bool :=
  if strStartsWith url.raw "data:image/" then true
  else config.skip_domains.any (fun d => strEndsWith url.netloc d)

example : truthyInt (some 0) = false := by decide
example : (Config.update_from_args defaultConfig
    { keyword := none, min_file_size := some 3, target_width := none,
      target_height := none, max_pages := 1, target_folder := "train_data" }).min_file_size
    = 3072 := by decide
example : should_skip ⟨"data:image/png;base64,x", "", "image/png;base64,x"⟩ defaultConfig = true := by
  decide
example : should_skip ⟨"data:text/plain,x", "", "text/plain,x"⟩ defaultConfig = false := by
  decide
example : should_skip ⟨"https://www.wallpaperflare.com/a.jpg", "www.wallpaperflare.com", "/a.jpg"⟩
    defaultConfig = true := by decide

/-- Outcome of one attempt of session.get on the network: a response with
a status code and a fully streamed body (a list of bytes), or a raised
exception (timeout or connection error, possibly after a partial write). -/
inductive FetchOutcome where
  | resp (status : Nat) (body : List Nat)
  | exn
deriving Repr, DecidableEq

/-- Observable events of one download_image run: an issued network
request, or the fixed 2-second backoff sleep of the except branch. -/
inductive Ev where
  | fetch
  | sleep
deriving Repr, DecidableEq

/-- download_image retries at most this many attempts (max_retries). -/
def maxRetries : Nat := 3

/-- State after the try/except/finally body of one loop iteration of
download_image: an early return value if a return statement ran (the
inner Option String being the returned value), whether the temp file
exists, the target directory contents (final file names), and the events
the iteration emitted. -/
structure TryRes where
  ret : Option (Option String)
  temp : Bool
  finals : List String
  evs : List Ev
deriving Repr, DecidableEq

/-- os.path.splitext(path)[1]: the extension of the last path component,
including the dot, where a dot-run at the start of the component does not
begin an extension.  Direct translation of the posixpath splitext
algorithm, on the character list. -/
def splitextExt (path : String) : String :=
  let cs := path.data
  let base := (cs.reverse.takeWhile (fun c => c ≠ '/')).reverse
  let stem := base.takeWhile (fun c => c = '.')
  let rest := base.drop stem.length
  if rest.any (fun c => c = '.') then
    String.mk ('.' :: (rest.reverse.takeWhile (fun c => c ≠ '.')).reverse)
  else ""

/-- Python str.lower, character by character. -/
def strLower (s : String) : String :=
  String.mk (s.data.map Char.toLower)

/-- The final name download_image promotes to: f-string
keyword_finalIndex followed by the lower-cased URL path extension. -/
def finalNameOf (config : Config) (finalIndex : Nat) (url : Url) : String :=
  config.keyword ++ "_" ++ Nat.repr finalIndex ++ strLower (splitextExt url.path)

/-- Deleting a file name from a directory (os.remove). -/
def removeName (finals : List String) (n : String) : List String :=
  finals.filter (fun m => m ≠ n)

/-- One iteration of the retry loop of download_image (second, effective
definition), before the finally block: the try body with its except
handler.  On status 200 the body is streamed to the temp file; a
sufficient size with an empty URL path returns None; otherwise the temp
file is promoted by removing any pre-existing final file and renaming.
An undersized file only logs, falling through to the next attempt.  A
non-200 status only logs a warning.  An exception sleeps the fixed
backoff when further attempts remain.  On an exception the temp file may
hold partial data, recorded pessimistically as present. -/
def tryBody (config : Config) (url : Url) (finalIndex : Nat) (retry : Nat)
    (out : FetchOutcome) (finals : List String) : TryRes :=
  match out with
  | .exn =>
      { ret := none, temp := true, finals
        evs := [Ev.fetch] ++ (if retry < maxRetries - 1 then [Ev.sleep] else []) }
  | .resp status body =>
      if status = 200 then
        let file_size : Int := body.length
        if config.min_file_size ≤ file_size then
          if url.path = "" then
            { ret := some none, temp := true, finals, evs := [Ev.fetch] }
          else
            let final_path := finalNameOf config finalIndex url
            { ret := some (some final_path), temp := false
              finals := final_path :: removeName finals final_path
              evs := [Ev.fetch] }
        else
          { ret := none, temp := true, finals, evs := [Ev.fetch] }
      else
        { ret := none, temp := false, finals, evs := [Ev.fetch] }

/-- One full iteration: the try body followed by the finally block, which
removes the temp file whenever it exists (best effort, modelled as always
succeeding). -/
def attemptIter (config : Config) (url : Url) (finalIndex : Nat) (retry : Nat)
    (out : FetchOutcome) (finals : List String) : TryRes :=
  let r := tryBody config url finalIndex retry out finals
  { r with temp := false }

/-- Result of a whole download_image run. -/
structure DlRes where
  result : Option String
  temp : Bool
  finals : List String
  evs : List Ev
deriving Repr, DecidableEq

/-- The retry loop of download_image: run attempts retry, retry+1, ...
while fuel remains; a return statement inside an iteration ends the loop,
and falling off the loop returns None. -/
def dlLoop (config : Config) (url : Url) (finalIndex : Nat)
    (net : Nat → FetchOutcome) : Nat → Nat → List String → DlRes
  | _, 0, finals => { result := none, temp := false, finals, evs := [] }
  | retry, fuel + 1, finals =>
      let a := attemptIter config url finalIndex retry (net retry) finals
      match a.ret with
      | some r => { result := r, temp := a.temp, finals := a.finals, evs := a.evs }
      | none =>
          let rest := dlLoop config url finalIndex net (retry + 1) fuel a.finals
          { rest with evs := a.evs ++ rest.evs }

/-- Translation of the effective (second) download_image definition.
The semaphore, cache-folder creation and logging have no effect on the
modelled state.  finals is the prior contents of the save folder. -/
def download_image (config : Config) (url : Url) (start_index downloaded_count : Nat)
    (net : Nat → FetchOutcome) (finals : List String) : DlRes :=
  if should_skip url config then
    { result := none, temp := false, finals, evs := [] }
  else
    dlLoop config url (start_index + downloaded_count) net 0 maxRetries finals

example : splitextExt "/x/a.jpg" = ".jpg" := by decide
example : splitextExt "/x/archive" = "" := by decide
example : splitextExt "/.bashrc" = "" := by decide
example : splitextExt "/a.b/c" = "" := by decide
example : finalNameOf defaultConfig 1 ⟨"http://h/a.jpg", "h", "/a.jpg"⟩ = "orange_1.jpg" := by
  decide
example :
    (download_image defaultConfig ⟨"http://h/a.jpg", "h", "/a.jpg"⟩ 1 0
      (fun _ => FetchOutcome.resp 404 []) []) =
    { result := none, temp := false, finals := [], evs := [Ev.fetch, Ev.fetch, Ev.fetch] } := by
  decide
example :
    (download_image { defaultConfig with min_file_size := 2 } ⟨"http://h/a.jpg", "h", "/a.jpg"⟩ 1 0
      (fun _ => FetchOutcome.resp 200 [7, 7]) []).result = some "orange_1.jpg" := by
  decide
example :
    (download_image { defaultConfig with min_file_size := 2 } ⟨"http://h/a.jpg", "h", "/a.jpg"⟩ 1 0
      (fun _ => FetchOutcome.resp 200 [7]) []).evs = [Ev.fetch, Ev.fetch, Ev.fetch] := by
  decide

/-- Python int() applied to a rational: truncation toward zero. -/
def pyInt (q : ℚ) : ℤ :=
  if 0 ≤ q then ⌊q⌋ else ⌈q⌉

/-- The resize arithmetic of process_image: the uniform ratio
min(target_width / width, target_height / height) computed with real
division (modelled exactly on the rationals), and the new dimensions
int(width * ratio), int(height * ratio).  The surrounding decoding,
alpha flattening and re-encoding preserve pixel dimensions and are
performed by the imaging library, outside this model. -/
def process_image_dims (config : Config) (width height : Nat) : ℤ × ℤ :=
  let ratio : ℚ := min ((config.target_width : ℚ) / (width : ℚ))
    ((config.target_height : ℚ) / (height : ℚ))
  (pyInt ((width : ℚ) * ratio), pyInt ((height : ℚ) * ratio))

example : process_image_dims defaultConfig 400 100 = (200, 50) := by
  norm_num [process_image_dims, pyInt, defaultConfig]
example : process_image_dims defaultConfig 100 100 = (200, 200) := by
  norm_num [process_image_dims, pyInt, defaultConfig]
example : process_image_dims defaultConfig 200 150 = (200, 150) := by
  norm_num [process_image_dims, pyInt, defaultConfig]

/-- A file of the save directory as rename_files observes it: its name,
its byte size (os.path.getsize) and its modification time
(os.path.getmtime). -/
structure DirFile where
  name : String
  size : Nat
  mtime : Nat
deriving Repr, DecidableEq

/-- os.path.getsize inside rename_files, by file name. -/
def fsize (d : List DirFile) (n : String) : Nat :=
  ((d.find? (fun f => f.name = n)).map DirFile.size).getD 0

/-- os.path.getmtime inside rename_files, by file name. -/
def fmtime (d : List DirFile) (n : String) : Nat :=
  ((d.find? (fun f => f.name = n)).map DirFile.mtime).getD 0

/-- Stable insertion by modification time, placing the new name before
the first strictly according position; together with sortByMtime this
models the stable ascending files.sort of rename_files. -/
def insertMt (d : List DirFile) (n : String) : List String → List String
  | [] => [n]
  | m :: ms => if fmtime d n ≤ fmtime d m then n :: m :: ms else m :: insertMt d n ms

/-- files.sort(key=getmtime): stable ascending sort by modification
time. -/
def sortByMtime (d : List DirFile) : List String → List String
  | [] => []
  | n :: ns => insertMt d n (sortByMtime d ns)

/-- The duplicate-detection scan of rename_files: walk the (sorted) file
names keeping the set of byte sizes seen so far (the keys of the
file_sizes dict); a file whose size was already seen is a duplicate. -/
def dupScan (d : List DirFile) : List String → List Nat → List String
  | [], _ => []
  | n :: ns, seen =>
      if fsize d n ∈ seen then n :: dupScan d ns seen
      else dupScan d ns (fsize d n :: seen)

/-- The renaming loop of rename_files: the i-th surviving name is
renamed to keyword_i.format; a pre-existing file bearing the target name
is removed first, and a file already bearing its target name is left
alone. -/
def renameLoop (config : Config) : List String → Nat → List DirFile → List DirFile
  | [], _, d => d
  | n :: ns, idx, d =>
      let newName := config.keyword ++ "_" ++ Nat.repr idx ++ "." ++ config.target_format
      let d' := if n = newName then d
        else (d.filter (fun f => f.name ≠ newName)).map
          (fun f => if f.name = n then { f with name := newName } else f)
      renameLoop config ns (idx + 1) d'

/-- The scan order of rename_files: the names with the target-format
suffix (Python endswith, with no dot added), sorted ascending by
modification time. -/
def scanOrder (config : Config) (d : List DirFile) : List String :=
  sortByMtime d ((d.map DirFile.name).filter (fun n => strEndsWith n config.target_format))

/-- The files surviving the duplicate-deletion pass of rename_files, in
scan order: the scan minus every name the scan marked duplicate. -/
def keptFiles (config : Config) (d : List DirFile) : List String :=
  (scanOrder config d).filter (fun n => n ∉ dupScan d (scanOrder config d) [])

/-- Translation of rename_files over a directory value: list the names
with the target-format suffix, sort them by modification time, delete
every file whose byte size repeats an earlier one, then renumber the
survivors from 1.  The enclosing try/except only logs, and no modelled
step raises. -/
def rename_files (config : Config) (d : List DirFile) : List DirFile :=
  let files := keptFiles config d
  let d := d.filter (fun f => f.name ∉ dupScan d (scanOrder config d) [])
  renameLoop config files 1 d

example :
    rename_files defaultConfig [⟨"a.jpg", 10, 1⟩, ⟨"orange_1.jpg", 20, 2⟩] =
      [⟨"orange_2.jpg", 10, 1⟩] := by decide
example :
    rename_files defaultConfig [⟨"b.jpg", 10, 2⟩, ⟨"a.jpg", 10, 1⟩, ⟨"c.jpg", 7, 3⟩] =
      [⟨"orange_1.jpg", 10, 1⟩, ⟨"orange_2.jpg", 7, 3⟩] := by decide

/-- Claim C10: Config.update_from_args treats a provided 0 for
min_file_size, target_width, target_height (and an empty keyword string)
as if the flag were absent, retaining the built-in default, and scales a
nonzero min_file_size v to v * 1024 bytes. -/
theorem claim_C10_update_from_args (a : Args) :
    ((a.min_file_size = some 0 ∨ a.min_file_size = none) →
      (defaultConfig.update_from_args a).min_file_size = defaultConfig.min_file_size) ∧
    ((a.target_width = some 0 ∨ a.target_width = none) →
      (defaultConfig.update_from_args a).target_width = defaultConfig.target_width) ∧
    ((a.target_height = some 0 ∨ a.target_height = none) →
      (defaultConfig.update_from_args a).target_height = defaultConfig.target_height) ∧
    ((a.keyword = some "" ∨ a.keyword = none) →
      (defaultConfig.update_from_args a).keyword = defaultConfig.keyword) ∧
    ∀ v : Int, a.min_file_size = some v → v ≠ 0 →
      (defaultConfig.update_from_args a).min_file_size = v * 1024 := by
  obtain ⟨ak, am, aw, ah, amp, atf⟩ := a
  refine ⟨?_, ?_, ?_, ?_, ?_⟩
  · rintro (h | h) <;> subst h <;>
      simp [Config.update_from_args, truthyInt, truthyStr] <;> split_ifs <;> simp
  · rintro (h | h) <;> subst h <;>
      simp [Config.update_from_args, truthyInt, truthyStr] <;> split_ifs <;> simp
  · rintro (h | h) <;> subst h <;>
      simp [Config.update_from_args, truthyInt, truthyStr] <;> split_ifs <;> simp
  · rintro (h | h) <;> subst h <;>
      simp [Config.update_from_args, truthyInt, truthyStr] <;> split_ifs <;> simp
  · rintro v rfl hv
    simp [Config.update_from_args, truthyInt, truthyStr, hv]
    split_ifs <;> simp

/-- Claim C10 witness: a zero min_file_size flag keeps the default 2048
bytes, and min_file_size 3 configures 3072 bytes. -/
theorem claim_C10_witness :
    (defaultConfig.update_from_args
      { keyword := some "", min_file_size := some 0, target_width := some 0,
        target_height := some 0, max_pages := 1, target_folder := "train_data" }).min_file_size
      = defaultConfig.min_file_size ∧
    (defaultConfig.update_from_args
      { keyword := none, min_file_size := some 3, target_width := none,
        target_height := none, max_pages := 1, target_folder := "train_data" }).min_file_size
      = 3 * 1024 :=
  ⟨(claim_C10_update_from_args _).1 (Or.inl rfl),
   (claim_C10_update_from_args _).2.2.2.2 3 rfl (by decide)⟩

/-- Claim C8 (amended): for every URL that starts with the literal
data:image/ (the only data-URI form the code rejects) or whose host ends
with a configured skip-domain suffix, download_image issues no network
request (no fetch event) and returns none, leaving the directory
untouched. -/
theorem claim_C8_skip_policy (config : Config) (url : Url) (si dc : Nat)
    (net : Nat → FetchOutcome) (finals : List String)
    (h : strStartsWith url.raw "data:image/" = true ∨
      ∃ dsuf ∈ config.skip_domains, strEndsWith url.netloc dsuf = true) :
    should_skip url config = true ∧
    download_image config url si dc net finals =
      { result := none, temp := false, finals := finals, evs := [] } := by
  have hs : should_skip url config = true := by
    rcases h with h | ⟨dsuf, hd, hsuf⟩
    · simp [should_skip, h]
    · by_cases hsw : strStartsWith url.raw "data:image/"
      · simp [should_skip, hsw]
      · simp [should_skip, hsw]
        exact ⟨dsuf, hd, hsuf⟩
  refine ⟨hs, ?_⟩
  simp [download_image, hs]

/-- Claim C8 witness: a data:image/ URL is skipped with no fetch event. -/
theorem claim_C8_witness :
    should_skip ⟨"data:image/png;base64,x", "", "image/png;base64,x"⟩ defaultConfig = true ∧
    (download_image defaultConfig ⟨"data:image/png;base64,x", "", "image/png;base64,x"⟩ 1 0
      (fun _ => FetchOutcome.exn) []).evs = [] :=
  ⟨(claim_C8_skip_policy defaultConfig ⟨"data:image/png;base64,x", "", "image/png;base64,x"⟩ 1 0
      (fun _ => FetchOutcome.exn) [] (Or.inl (by decide))).1,
   by rw [(claim_C8_skip_policy defaultConfig ⟨"data:image/png;base64,x", "", "image/png;base64,x"⟩
      1 0 (fun _ => FetchOutcome.exn) [] (Or.inl (by decide))).2]⟩

/-- Claim C8 counterexample: the URL data:text/plain,x is a data-URI,
yet should_skip does not reject it (the code only tests the prefix
data:image/), so download_image does issue network requests for it. -/
theorem claim_C8_counterexample :
    should_skip ⟨"data:text/plain,x", "", "text/plain,x"⟩ defaultConfig = false ∧
    (download_image defaultConfig ⟨"data:text/plain,x", "", "text/plain,x"⟩ 1 0
      (fun _ => FetchOutcome.resp 404 []) []).evs.count Ev.fetch = 3 ∧
    ¬ (download_image defaultConfig ⟨"data:text/plain,x", "", "text/plain,x"⟩ 1 0
      (fun _ => FetchOutcome.resp 404 []) []).evs = [] := by
  decide

/-- Claim C9: a URL whose parsed path component is empty makes
download_image return none even though the fetch succeeded with status
200 and the staged file meets the minimum size: no final file is
created, and the staged temp file is deleted by the cleanup path. -/
theorem claim_C9_empty_path (config : Config) (url : Url) (si dc : Nat)
    (net : Nat → FetchOutcome) (finals : List String) (b : List Nat)
    (hskip : should_skip url config = false)
    (hnet : net 0 = FetchOutcome.resp 200 b)
    (hsize : config.min_file_size ≤ (b.length : Int))
    (hpath : url.path = "") :
    download_image config url si dc net finals =
      { result := none, temp := false, finals := finals, evs := [Ev.fetch] } := by
  simp only [download_image, hskip, Bool.false_eq_true, if_false, maxRetries]
  norm_num [dlLoop, attemptIter, tryBody, hnet, hsize, hpath]

/-- Claim C9 witness: a 200 response of sufficient size for a URL with
an empty path yields none and no directory change. -/
theorem claim_C9_witness :
    download_image { defaultConfig with min_file_size := 2 } ⟨"http://h", "h", ""⟩ 1 0
      (fun _ => FetchOutcome.resp 200 [7, 7]) [] =
      { result := none, temp := false, finals := [], evs := [Ev.fetch] } :=
  claim_C9_empty_path { defaultConfig with min_file_size := 2 } ⟨"http://h", "h", ""⟩ 1 0
    (fun _ => FetchOutcome.resp 200 [7, 7]) [] [7, 7] (by decide) rfl (by decide) rfl

/-- Claim C1 counterexample: with every attempt answering 200 and a
1-byte body below the 2048-byte minimum, download_image performs all 3
fetch attempts; the claim predicts a single attempt (size rejection
terminal, not retried). -/
theorem claim_C1_counterexample :
    (download_image defaultConfig ⟨"http://h/a.jpg", "h", "/a.jpg"⟩ 1 0
      (fun _ => FetchOutcome.resp 200 [7]) []).result = none ∧
    (download_image defaultConfig ⟨"http://h/a.jpg", "h", "/a.jpg"⟩ 1 0
      (fun _ => FetchOutcome.resp 200 [7]) []).evs.count Ev.fetch = 3 ∧
    ¬ (download_image defaultConfig ⟨"http://h/a.jpg", "h", "/a.jpg"⟩ 1 0
      (fun _ => FetchOutcome.resp 200 [7]) []).evs.count Ev.fetch = 1 := by
  decide

/-- Claim C1 (amended): when a fetch succeeds with status 200 but the
staged file is below the configured minimum, the staged file is
discarded and no file is promoted; the attempt loop however continues,
so with every attempt size-rejected all 3 fetch attempts are performed
and the result is none with the directory unchanged. -/
theorem claim_C1_size_reject (config : Config) (url : Url) (si dc : Nat)
    (net : Nat → FetchOutcome) (finals : List String)
    (hskip : should_skip url config = false)
    (hsmall : ∀ i, i < maxRetries →
      ∃ b, net i = FetchOutcome.resp 200 b ∧ (b.length : Int) < config.min_file_size) :
    (download_image config url si dc net finals).result = none ∧
    (download_image config url si dc net finals).temp = false ∧
    (download_image config url si dc net finals).finals = finals ∧
    (download_image config url si dc net finals).evs.count Ev.fetch = maxRetries := by
  obtain ⟨b0, h0, s0⟩ := hsmall 0 (by decide)
  obtain ⟨b1, h1, s1⟩ := hsmall 1 (by decide)
  obtain ⟨b2, h2, s2⟩ := hsmall 2 (by decide)
  have n0 : ¬ config.min_file_size ≤ (b0.length : Int) := not_le.mpr s0
  have n1 : ¬ config.min_file_size ≤ (b1.length : Int) := not_le.mpr s1
  have n2 : ¬ config.min_file_size ≤ (b2.length : Int) := not_le.mpr s2
  simp only [download_image, hskip, Bool.false_eq_true, if_false, maxRetries]
  norm_num [dlLoop, attemptIter, tryBody, h0, h1, h2, n0, n1, n2]

/-- Claim C1 witness: the amended statement at the concrete all-small
run. -/
theorem claim_C1_witness :
    (download_image defaultConfig ⟨"http://h/a.jpg", "h", "/a.jpg"⟩ 1 0
      (fun _ => FetchOutcome.resp 200 [7]) []).result = none ∧
    (download_image defaultConfig ⟨"http://h/a.jpg", "h", "/a.jpg"⟩ 1 0
      (fun _ => FetchOutcome.resp 200 [7]) []).temp = false ∧
    (download_image defaultConfig ⟨"http://h/a.jpg", "h", "/a.jpg"⟩ 1 0
      (fun _ => FetchOutcome.resp 200 [7]) []).finals = [] ∧
    (download_image defaultConfig ⟨"http://h/a.jpg", "h", "/a.jpg"⟩ 1 0
      (fun _ => FetchOutcome.resp 200 [7]) []).evs.count Ev.fetch = maxRetries :=
  claim_C1_size_reject defaultConfig ⟨"http://h/a.jpg", "h", "/a.jpg"⟩ 1 0
    (fun _ => FetchOutcome.resp 200 [7]) [] (by decide)
    (fun _ _ => ⟨[7], rfl, by decide⟩)

/-- A transport failure of one attempt: an exception (timeout or
connection error) or a response whose status is not 200. -/
def isFail : FetchOutcome → Bool
  | .resp s _ => s ≠ 200
  | .exn => true

/-- An attempt that raised an exception (the only case whose retry
waits the fixed backoff). -/
def isExn : FetchOutcome → Bool
  | .resp _ _ => false
  | .exn => true

/-- Claim C4 counterexample: with every attempt answering status 404,
download_image retries all 3 attempts but applies no backoff sleep at
all; the claim predicts the fixed backoff between consecutive attempts
(2 sleeps for 3 attempts).  The backoff only runs in the exception
handler, which a non-2xx response never enters. -/
theorem claim_C4_counterexample :
    (download_image defaultConfig ⟨"http://h/a.jpg", "h", "/a.jpg"⟩ 1 0
      (fun _ => FetchOutcome.resp 404 []) []).result = none ∧
    (download_image defaultConfig ⟨"http://h/a.jpg", "h", "/a.jpg"⟩ 1 0
      (fun _ => FetchOutcome.resp 404 []) []).evs.count Ev.fetch = 3 ∧
    (download_image defaultConfig ⟨"http://h/a.jpg", "h", "/a.jpg"⟩ 1 0
      (fun _ => FetchOutcome.resp 404 []) []).evs.count Ev.sleep = 0 ∧
    ¬ (download_image defaultConfig ⟨"http://h/a.jpg", "h", "/a.jpg"⟩ 1 0
      (fun _ => FetchOutcome.resp 404 []) []).evs.count Ev.sleep = 2 := by
  decide

/-- Claim C4 (amended): every transport failure (timeout, connection
error, non-2xx status) is retried up to the fixed bound of 3 attempts
and exhaustion yields none for that URL; the 2-unit backoff is applied
only after exception failures (timeout, connection error) that are not
the last attempt — a non-2xx response is retried immediately without
backoff — and never after the last attempt (the event trace ends with a
fetch). -/
theorem claim_C4_retry_policy (config : Config) (url : Url) (si dc : Nat)
    (net : Nat → FetchOutcome) (finals : List String)
    (hskip : should_skip url config = false)
    (hfail : ∀ i, i < maxRetries → isFail (net i) = true) :
    (download_image config url si dc net finals).result = none ∧
    (download_image config url si dc net finals).temp = false ∧
    (download_image config url si dc net finals).finals = finals ∧
    (download_image config url si dc net finals).evs.count Ev.fetch = maxRetries ∧
    (download_image config url si dc net finals).evs.count Ev.sleep =
      ((List.range (maxRetries - 1)).filter (fun i => isExn (net i))).length ∧
    (download_image config url si dc net finals).evs.getLast? = some Ev.fetch := by
  have H : ∀ i, i < maxRetries →
      (∃ s b, net i = FetchOutcome.resp s b ∧ ¬ s = 200) ∨ net i = FetchOutcome.exn := by
    intro i hi
    have hf := hfail i hi
    cases hne : net i with
    | resp s b =>
        left
        refine ⟨s, b, rfl, ?_⟩
        rw [hne] at hf
        simpa [isFail] using hf
    | exn => right; rfl
  rcases H 0 (by decide) with ⟨s0, b0, hn0, hs0⟩ | hn0 <;>
    rcases H 1 (by decide) with ⟨s1, b1, hn1, hs1⟩ | hn1 <;>
      rcases H 2 (by decide) with ⟨s2, b2, hn2, hs2⟩ | hn2 <;>
        simp_all [download_image, dlLoop, attemptIter, tryBody, isExn, maxRetries,
          List.range_succ]

/-- Claim C4 witness: the amended statement at a run whose first attempt
times out and whose remaining attempts answer 404: one backoff sleep,
three fetches, trailing fetch, result none. -/
theorem claim_C4_witness :
    (download_image defaultConfig ⟨"http://h/a.jpg", "h", "/a.jpg"⟩ 1 0
      (fun i => if i = 0 then FetchOutcome.exn else FetchOutcome.resp 404 []) []).result
      = none ∧
    (download_image defaultConfig ⟨"http://h/a.jpg", "h", "/a.jpg"⟩ 1 0
      (fun i => if i = 0 then FetchOutcome.exn else FetchOutcome.resp 404 []) []).temp
      = false ∧
    (download_image defaultConfig ⟨"http://h/a.jpg", "h", "/a.jpg"⟩ 1 0
      (fun i => if i = 0 then FetchOutcome.exn else FetchOutcome.resp 404 []) []).finals
      = [] ∧
    (download_image defaultConfig ⟨"http://h/a.jpg", "h", "/a.jpg"⟩ 1 0
      (fun i => if i = 0 then FetchOutcome.exn else FetchOutcome.resp 404 []) []).evs.count
      Ev.fetch = maxRetries ∧
    (download_image defaultConfig ⟨"http://h/a.jpg", "h", "/a.jpg"⟩ 1 0
      (fun i => if i = 0 then FetchOutcome.exn else FetchOutcome.resp 404 []) []).evs.count
      Ev.sleep = ((List.range (maxRetries - 1)).filter (fun i =>
        isExn (if i = 0 then FetchOutcome.exn else FetchOutcome.resp 404 []))).length ∧
    (download_image defaultConfig ⟨"http://h/a.jpg", "h", "/a.jpg"⟩ 1 0
      (fun i => if i = 0 then FetchOutcome.exn else FetchOutcome.resp 404 []) []).evs.getLast?
      = some Ev.fetch :=
  claim_C4_retry_policy defaultConfig ⟨"http://h/a.jpg", "h", "/a.jpg"⟩ 1 0
    (fun i => if i = 0 then FetchOutcome.exn else FetchOutcome.resp 404 []) [] (by decide)
    (fun i _ => by cases i <;> simp [isFail])

/-- The finally block makes every iteration of the retry loop end with
the temp file absent. -/
theorem attemptIter_temp (config : Config) (url : Url) (fi retry : Nat)
    (out : FetchOutcome) (finals : List String) :
    (attemptIter config url fi retry out finals).temp = false := rfl

/-- A deleted name no longer occurs in the directory. -/
theorem count_removeName_self (finals : List String) (p : String) :
    (removeName finals p).count p = 0 := by
  simp [removeName, List.count_eq_zero, List.mem_filter]

/-- If an iteration returns a final path, that path occurs exactly once
in the directory afterwards: any pre-existing file at the path was
removed before the rename moved the temp file there. -/
theorem attemptIter_promote (config : Config) (url : Url) (fi retry : Nat)
    (out : FetchOutcome) (finals : List String) (p : String)
    (h : (attemptIter config url fi retry out finals).ret = some (some p)) :
    (attemptIter config url fi retry out finals).finals.count p = 1 := by
  unfold attemptIter tryBody at h ⊢
  cases out with
  | exn => simp at h
  | resp s b =>
      dsimp only at h ⊢
      split_ifs at h ⊢ with h200 hsz hpath
      all_goals simp at h
      subst h
      simp [List.count_cons, count_removeName_self]

/-- Across the whole retry loop the temp file is gone at exit, and a
returned final path occurs exactly once in the directory. -/
theorem dlLoop_clean (config : Config) (url : Url) (fi : Nat) (net : Nat → FetchOutcome) :
    ∀ fuel retry finals,
      (dlLoop config url fi net retry fuel finals).temp = false ∧
      ∀ p, (dlLoop config url fi net retry fuel finals).result = some p →
        (dlLoop config url fi net retry fuel finals).finals.count p = 1 := by
  intro fuel
  induction fuel with
  | zero =>
      intro retry finals
      refine ⟨rfl, ?_⟩
      intro p h
      simp [dlLoop] at h
  | succ n ih =>
      intro retry finals
      rcases hr : (attemptIter config url fi retry (net retry) finals).ret with _ | r
      · have he : dlLoop config url fi net retry (n + 1) finals =
            { dlLoop config url fi net (retry + 1) n
                (attemptIter config url fi retry (net retry) finals).finals with
              evs := (attemptIter config url fi retry (net retry) finals).evs ++
                (dlLoop config url fi net (retry + 1) n
                  (attemptIter config url fi retry (net retry) finals).finals).evs } := by
          simp [dlLoop, hr]
        rw [he]
        exact ih (retry + 1) (attemptIter config url fi retry (net retry) finals).finals
      · have he : dlLoop config url fi net retry (n + 1) finals =
            { result := r, temp := (attemptIter config url fi retry (net retry) finals).temp,
              finals := (attemptIter config url fi retry (net retry) finals).finals,
              evs := (attemptIter config url fi retry (net retry) finals).evs } := by
          simp [dlLoop, hr]
        rw [he]
        refine ⟨attemptIter_temp config url fi retry (net retry) finals, ?_⟩
        intro p hp
        have hrp : r = some p := by simpa using hp
        subst hrp
        exact attemptIter_promote config url fi retry (net retry) finals p hr

/-- Claim C6: on every exit path of download_image the per-task temp
file no longer exists afterwards, and on a successful return the
returned final path holds exactly one file (the temp file was moved
there by rename after any pre-existing file was removed). -/
theorem claim_C6_cleanup (config : Config) (url : Url) (si dc : Nat)
    (net : Nat → FetchOutcome) (finals : List String) :
    (download_image config url si dc net finals).temp = false ∧
    ∀ p, (download_image config url si dc net finals).result = some p →
      (download_image config url si dc net finals).finals.count p = 1 := by
  by_cases hskip : should_skip url config
  · refine ⟨by simp [download_image, hskip], ?_⟩
    intro p h
    simp [download_image, hskip] at h
  · have h := dlLoop_clean config url (si + dc) net maxRetries 0 finals
    constructor
    · simpa [download_image, hskip] using h.1
    · intro p
      have hp := h.2 p
      simpa [download_image, hskip] using hp

/-- Claim C6 witness: a successful promotion over a directory that
already held a file of the same name leaves the temp file absent and
exactly one file at the returned path. -/
theorem claim_C6_witness :
    (download_image { defaultConfig with min_file_size := 2 } ⟨"http://h/a.jpg", "h", "/a.jpg"⟩
      1 0 (fun _ => FetchOutcome.resp 200 [7, 7]) ["orange_1.jpg", "x.jpg"]).temp = false ∧
    (download_image { defaultConfig with min_file_size := 2 } ⟨"http://h/a.jpg", "h", "/a.jpg"⟩
      1 0 (fun _ => FetchOutcome.resp 200 [7, 7]) ["orange_1.jpg", "x.jpg"]).finals.count
      "orange_1.jpg" = 1 :=
  ⟨(claim_C6_cleanup { defaultConfig with min_file_size := 2 } ⟨"http://h/a.jpg", "h", "/a.jpg"⟩
      1 0 (fun _ => FetchOutcome.resp 200 [7, 7]) ["orange_1.jpg", "x.jpg"]).1,
   (claim_C6_cleanup { defaultConfig with min_file_size := 2 } ⟨"http://h/a.jpg", "h", "/a.jpg"⟩
      1 0 (fun _ => FetchOutcome.resp 200 [7, 7]) ["orange_1.jpg", "x.jpg"]).2
      "orange_1.jpg" (by decide)⟩

/-- Claim C2 counterexample: a 100 x 100 image already fits the
200 x 200 target box, yet process_image does not leave it unchanged —
the ratio min(200/100, 200/100) = 2 is not clamped at 1 and the image is
upscaled to 200 x 200. -/
theorem claim_C2_counterexample :
    process_image_dims defaultConfig 100 100 = (200, 200) ∧
    ¬ process_image_dims defaultConfig 100 100 = (100, 100) := by
  constructor <;> norm_num [process_image_dims, pyInt, defaultConfig, Prod.ext_iff]

/-- Claim C2 (amended): re-running the resize arithmetic leaves the
pixel dimensions unchanged for an image that fits the target box and
touches it on at least one axis (ratio exactly 1); the ratio is not
clamped, so images strictly smaller than the box on both axes are
upscaled instead. -/
theorem claim_C2_resize_identity (config : Config) (w h : Nat)
    (hw : 0 < w) (hh : 0 < h)
    (hwle : (w : Int) ≤ config.target_width) (hhle : (h : Int) ≤ config.target_height)
    (htouch : (w : Int) = config.target_width ∨ (h : Int) = config.target_height) :
    process_image_dims config w h = ((w : Int), (h : Int)) := by
  have hw0 : (0 : ℚ) < (w : ℚ) := by exact_mod_cast hw
  have hh0 : (0 : ℚ) < (h : ℚ) := by exact_mod_cast hh
  have hratio : min ((config.target_width : ℚ) / (w : ℚ))
      ((config.target_height : ℚ) / (h : ℚ)) = 1 := by
    rcases htouch with ht | ht
    · have hwq : (config.target_width : ℚ) = (w : ℚ) := by exact_mod_cast ht.symm
      rw [hwq, div_self (ne_of_gt hw0)]
      have h1 : (1 : ℚ) ≤ (config.target_height : ℚ) / (h : ℚ) := by
        rw [le_div_iff₀ hh0, one_mul]
        exact_mod_cast hhle
      exact min_eq_left h1
    · have hhq : (config.target_height : ℚ) = (h : ℚ) := by exact_mod_cast ht.symm
      rw [hhq, div_self (ne_of_gt hh0)]
      have h1 : (1 : ℚ) ≤ (config.target_width : ℚ) / (w : ℚ) := by
        rw [le_div_iff₀ hw0, one_mul]
        exact_mod_cast hwle
      exact min_eq_right h1
  simp only [process_image_dims, hratio, mul_one, pyInt]
  rw [if_pos (by positivity), if_pos (by positivity)]
  simp [Int.floor_natCast]

/-- Claim C2 witness: the amended statement at a 200 x 150 image and the
default 200 x 200 box, which touches the box on the width axis. -/
theorem claim_C2_witness :
    process_image_dims defaultConfig 200 150 = (200, 150) :=
  claim_C2_resize_identity defaultConfig 200 150 (by norm_num) (by norm_num) (by decide)
    (by decide) (Or.inl (by decide))

/-- Claim C5: for every image the resize arithmetic scales both axes by
the uniform ratio min(targetWidth/width, targetHeight/height), so the
output fits the target box, and the output aspect ratio matches the
input aspect ratio up to the integer rounding of each axis (the
cross-multiplied products differ by less than one rounding step). -/
theorem claim_C5_resize_fits (config : Config) (w h : Nat)
    (hw : 0 < w) (hh : 0 < h)
    (htw : 0 ≤ config.target_width) (hth : 0 ≤ config.target_height) :
    (process_image_dims config w h).1 ≤ config.target_width ∧
    (process_image_dims config w h).2 ≤ config.target_height ∧
    (h : Int) * (process_image_dims config w h).1 <
      (w : Int) * (process_image_dims config w h).2 + (w : Int) ∧
    (w : Int) * (process_image_dims config w h).2 <
      (h : Int) * (process_image_dims config w h).1 + (h : Int) := by
  have hw0 : (0 : ℚ) < (w : ℚ) := by exact_mod_cast hw
  have hh0 : (0 : ℚ) < (h : ℚ) := by exact_mod_cast hh
  have htw0 : (0 : ℚ) ≤ (config.target_width : ℚ) := by exact_mod_cast htw
  have hth0 : (0 : ℚ) ≤ (config.target_height : ℚ) := by exact_mod_cast hth
  have hr0 : 0 ≤ min ((config.target_width : ℚ) / (w : ℚ))
      ((config.target_height : ℚ) / (h : ℚ)) :=
    le_min (div_nonneg htw0 hw0.le) (div_nonneg hth0 hh0.le)
  have e : process_image_dims config w h =
      (⌊(w : ℚ) * min ((config.target_width : ℚ) / (w : ℚ))
          ((config.target_height : ℚ) / (h : ℚ))⌋,
       ⌊(h : ℚ) * min ((config.target_width : ℚ) / (w : ℚ))
          ((config.target_height : ℚ) / (h : ℚ))⌋) := by
    simp only [process_image_dims, pyInt]
    rw [if_pos (mul_nonneg hw0.le hr0), if_pos (mul_nonneg hh0.le hr0)]
  rw [e]
  dsimp only
  have fx1 := Int.floor_le ((w : ℚ) * min ((config.target_width : ℚ) / (w : ℚ))
    ((config.target_height : ℚ) / (h : ℚ)))
  have fx2 := Int.lt_floor_add_one ((w : ℚ) * min ((config.target_width : ℚ) / (w : ℚ))
    ((config.target_height : ℚ) / (h : ℚ)))
  have fy1 := Int.floor_le ((h : ℚ) * min ((config.target_width : ℚ) / (w : ℚ))
    ((config.target_height : ℚ) / (h : ℚ)))
  have fy2 := Int.lt_floor_add_one ((h : ℚ) * min ((config.target_width : ℚ) / (w : ℚ))
    ((config.target_height : ℚ) / (h : ℚ)))
  have bx : (w : ℚ) * min ((config.target_width : ℚ) / (w : ℚ))
      ((config.target_height : ℚ) / (h : ℚ)) ≤ (config.target_width : ℚ) := by
    have h1 : (w : ℚ) * min ((config.target_width : ℚ) / (w : ℚ))
        ((config.target_height : ℚ) / (h : ℚ)) ≤
        (w : ℚ) * ((config.target_width : ℚ) / (w : ℚ)) :=
      mul_le_mul_of_nonneg_left (min_le_left _ _) hw0.le
    have h2 : (w : ℚ) * ((config.target_width : ℚ) / (w : ℚ)) = (config.target_width : ℚ) := by
      rw [mul_comm, div_mul_cancel₀ _ (ne_of_gt hw0)]
    exact le_of_le_of_eq h1 h2
  have hb : (h : ℚ) * min ((config.target_width : ℚ) / (w : ℚ))
      ((config.target_height : ℚ) / (h : ℚ)) ≤ (config.target_height : ℚ) := by
    have h1 : (h : ℚ) * min ((config.target_width : ℚ) / (w : ℚ))
        ((config.target_height : ℚ) / (h : ℚ)) ≤
        (h : ℚ) * ((config.target_height : ℚ) / (h : ℚ)) :=
      mul_le_mul_of_nonneg_left (min_le_right _ _) hh0.le
    have h2 : (h : ℚ) * ((config.target_height : ℚ) / (h : ℚ)) = (config.target_height : ℚ) := by
      rw [mul_comm, div_mul_cancel₀ _ (ne_of_gt hh0)]
    exact le_of_le_of_eq h1 h2
  refine ⟨?_, ?_, ?_, ?_⟩
  · have := Int.floor_le_floor bx
    rwa [Int.floor_intCast] at this
  · have := Int.floor_le_floor hb
    rwa [Int.floor_intCast] at this
  · have q : (h : ℚ) * (⌊(w : ℚ) * min ((config.target_width : ℚ) / (w : ℚ))
        ((config.target_height : ℚ) / (h : ℚ))⌋ : ℚ) <
        (w : ℚ) * (⌊(h : ℚ) * min ((config.target_width : ℚ) / (w : ℚ))
        ((config.target_height : ℚ) / (h : ℚ))⌋ : ℚ) + (w : ℚ) := by
      nlinarith [mul_le_mul_of_nonneg_left fx1 hh0.le, mul_lt_mul_of_pos_left fy2 hw0]
    exact_mod_cast q
  · have q : (w : ℚ) * (⌊(h : ℚ) * min ((config.target_width : ℚ) / (w : ℚ))
        ((config.target_height : ℚ) / (h : ℚ))⌋ : ℚ) <
        (h : ℚ) * (⌊(w : ℚ) * min ((config.target_width : ℚ) / (w : ℚ))
        ((config.target_height : ℚ) / (h : ℚ))⌋ : ℚ) + (h : ℚ) := by
      nlinarith [mul_le_mul_of_nonneg_left fy1 hw0.le, mul_lt_mul_of_pos_left fx2 hh0]
    exact_mod_cast q

/-- Claim C5 witness: a 400 x 100 image against the default 200 x 200
box fits after resizing and keeps its aspect ratio up to rounding. -/
theorem claim_C5_witness :
    (process_image_dims defaultConfig 400 100).1 ≤ defaultConfig.target_width ∧
    (process_image_dims defaultConfig 400 100).2 ≤ defaultConfig.target_height ∧
    ((100 : Nat) : Int) * (process_image_dims defaultConfig 400 100).1 <
      ((400 : Nat) : Int) * (process_image_dims defaultConfig 400 100).2 + ((400 : Nat) : Int) ∧
    ((400 : Nat) : Int) * (process_image_dims defaultConfig 400 100).2 <
      ((100 : Nat) : Int) * (process_image_dims defaultConfig 400 100).1 + ((100 : Nat) : Int) :=
  claim_C5_resize_fits defaultConfig 400 100 (by norm_num) (by norm_num) (by decide) (by decide)

/-- Claim C3 (evaluating the code at the failing input): with a.jpg
(mtime 1) and the prior-run file orange_1.jpg (mtime 2) in the folder,
rename_files removes orange_1.jpg while renaming a.jpg onto its name and
then renames that file again, ending with the single file orange_2.jpg:
the final names are not the contiguous sequence orange_1..orange_N, and
one file was destroyed. -/
theorem claim_C3_rename_eval :
    rename_files defaultConfig [⟨"a.jpg", 10, 1⟩, ⟨"orange_1.jpg", 20, 2⟩] =
      [⟨"orange_2.jpg", 10, 1⟩] ∧
    "orange_1.jpg" ∉ (rename_files defaultConfig
      [⟨"a.jpg", 10, 1⟩, ⟨"orange_1.jpg", 20, 2⟩]).map DirFile.name := by
  decide

/-- Inserting a name keeps a list a permutation of the cons. -/
theorem insertMt_perm (d : List DirFile) (n : String) :
    ∀ l, (insertMt d n l).Perm (n :: l) := by
  intro l
  induction l with
  | nil => simp [insertMt]
  | cons m ms ih =>
      by_cases hm : fmtime d n ≤ fmtime d m
      · simp [insertMt, hm]
      · simp only [insertMt, if_neg hm]
        exact (ih.cons m).trans (List.Perm.swap n m ms)

/-- The modification-time sort is a permutation of its input. -/
theorem sortByMtime_perm (d : List DirFile) :
    ∀ ns, (sortByMtime d ns).Perm ns := by
  intro ns
  induction ns with
  | nil => simp [sortByMtime]
  | cons n ns ih =>
      simp only [sortByMtime]
      exact (insertMt_perm d n (sortByMtime d ns)).trans (ih.cons n)

/-- Inserting into an ascending list keeps it ascending. -/
theorem insertMt_sorted (d : List DirFile) (n : String) :
    ∀ l, l.Pairwise (fun a b => fmtime d a ≤ fmtime d b) →
      (insertMt d n l).Pairwise (fun a b => fmtime d a ≤ fmtime d b) := by
  intro l
  induction l with
  | nil => simp [insertMt]
  | cons m ms ih =>
      intro hp
      rcases List.pairwise_cons.mp hp with ⟨hm, hms⟩
      by_cases h : fmtime d n ≤ fmtime d m
      · simp only [insertMt, if_pos h]
        refine List.Pairwise.cons ?_ hp
        intro b hb
        rcases List.mem_cons.mp hb with rfl | hb
        · exact h
        · exact le_trans h (hm b hb)
      · simp only [insertMt, if_neg h]
        refine List.Pairwise.cons ?_ (ih hms)
        intro b hb
        have hb' : b ∈ n :: ms := (insertMt_perm d n ms).mem_iff.mp hb
        rcases List.mem_cons.mp hb' with rfl | hb'
        · exact le_of_not_le h
        · exact hm b hb'

/-- The modification-time sort produces an ascending list. -/
theorem sortByMtime_sorted (d : List DirFile) :
    ∀ ns, (sortByMtime d ns).Pairwise (fun a b => fmtime d a ≤ fmtime d b) := by
  intro ns
  induction ns with
  | nil => simp [sortByMtime]
  | cons n ns ih => exact insertMt_sorted d n (sortByMtime d ns) ih

/-- The survivors of the duplicate scan, written as one recursion: keep
a name when its size has not been seen, recording its size as seen.  The
names rename_files keeps equal this list (filter_dupScan_eq_keepFirst
below), which is the convenient shape for reasoning. -/
def keepFirst (d : List DirFile) : List String → List Nat → List String
  | [], _ => []
  | n :: ns, seen =>
      if fsize d n ∈ seen then keepFirst d ns seen
      else n :: keepFirst d ns (fsize d n :: seen)

/-- Every name the scan marks duplicate occurs in the scan. -/
theorem dupScan_sub (d : List DirFile) :
    ∀ ns seen n, n ∈ dupScan d ns seen → n ∈ ns := by
  intro ns
  induction ns with
  | nil => simp [dupScan]
  | cons m ms ih =>
      intro seen n h
      by_cases hm : fsize d m ∈ seen
      · simp only [dupScan, if_pos hm] at h
        rcases List.mem_cons.mp h with rfl | h
        · exact List.mem_cons_self n ms
        · exact List.mem_cons_of_mem m (ih seen n h)
      · simp only [dupScan, if_neg hm] at h
        exact List.mem_cons_of_mem m (ih _ n h)

/-- Every kept name occurs in the scan. -/
theorem keepFirst_sub (d : List DirFile) :
    ∀ ns seen n, n ∈ keepFirst d ns seen → n ∈ ns := by
  intro ns
  induction ns with
  | nil => simp [keepFirst]
  | cons m ms ih =>
      intro seen n h
      by_cases hm : fsize d m ∈ seen
      · simp only [keepFirst, if_pos hm] at h
        exact List.mem_cons_of_mem m (ih seen n h)
      · simp only [keepFirst, if_neg hm] at h
        rcases List.mem_cons.mp h with rfl | h
        · exact List.mem_cons_self n ms
        · exact List.mem_cons_of_mem m (ih _ n h)

/-- A kept name has a size outside the already-seen set. -/
theorem keepFirst_notin_seen (d : List DirFile) :
    ∀ ns seen n, n ∈ keepFirst d ns seen → fsize d n ∉ seen := by
  intro ns
  induction ns with
  | nil => simp [keepFirst]
  | cons m ms ih =>
      intro seen n h
      by_cases hm : fsize d m ∈ seen
      · simp only [keepFirst, if_pos hm] at h
        exact ih seen n h
      · simp only [keepFirst, if_neg hm] at h
        rcases List.mem_cons.mp h with rfl | h
        · exact hm
        · intro hs
          exact ih _ n h (List.mem_cons_of_mem _ hs)

/-- No two kept names share a byte size. -/
theorem keepFirst_pairwise (d : List DirFile) :
    ∀ ns seen, (keepFirst d ns seen).Pairwise (fun a b => fsize d a ≠ fsize d b) := by
  intro ns
  induction ns with
  | nil => simp [keepFirst]
  | cons m ms ih =>
      intro seen
      by_cases hm : fsize d m ∈ seen
      · simpa only [keepFirst, if_pos hm] using ih seen
      · simp only [keepFirst, if_neg hm]
        refine List.Pairwise.cons ?_ (ih _)
        intro b hb heq
        exact keepFirst_notin_seen d ms _ b hb (heq ▸ List.mem_cons_self _ _)

/-- On a duplicate-free scan, filtering out the names of the duplicate
scan is the same as keeping the first name of each size. -/
theorem filter_dupScan_eq_keepFirst (d : List DirFile) :
    ∀ ns seen, ns.Nodup →
      ns.filter (fun n => n ∉ dupScan d ns seen) = keepFirst d ns seen := by
  intro ns
  induction ns with
  | nil => intro seen _; simp [dupScan, keepFirst]
  | cons m ms ih =>
      intro seen hnd
      rcases List.nodup_cons.mp hnd with ⟨hm_not, hms⟩
      by_cases hm : fsize d m ∈ seen
      · have hscan : dupScan d (m :: ms) seen = m :: dupScan d ms seen := by
          simp [dupScan, hm]
        have hkeep : keepFirst d (m :: ms) seen = keepFirst d ms seen := by
          simp [keepFirst, hm]
        rw [hscan, hkeep]
        have hstep : (m :: ms).filter (fun n => n ∉ m :: dupScan d ms seen) =
            ms.filter (fun n => n ∉ m :: dupScan d ms seen) := by
          simp [List.filter_cons]
        rw [hstep]
        have hcongr : ms.filter (fun n => n ∉ m :: dupScan d ms seen) =
            ms.filter (fun n => n ∉ dupScan d ms seen) := by
          apply List.filter_congr
          intro n hn
          have hne : n ≠ m := fun e => hm_not (e ▸ hn)
          simp [hne]
        rw [hcongr]
        exact ih seen hms
      · have hscan : dupScan d (m :: ms) seen = dupScan d ms (fsize d m :: seen) := by
          simp [dupScan, hm]
        have hkeep : keepFirst d (m :: ms) seen =
            m :: keepFirst d ms (fsize d m :: seen) := by
          simp [keepFirst, hm]
        rw [hscan, hkeep]
        have hmem : m ∉ dupScan d ms (fsize d m :: seen) :=
          fun hmm => hm_not (dupScan_sub d ms _ m hmm)
        have hstep : (m :: ms).filter (fun n => n ∉ dupScan d ms (fsize d m :: seen)) =
            m :: ms.filter (fun n => n ∉ dupScan d ms (fsize d m :: seen)) := by
          simp [List.filter_cons, hmem]
        rw [hstep]
        congr 1
        exact ih _ hms

/-- A name of a duplicate-free scan survives exactly when its size was
not yet seen and no name before it in scan order has its size. -/
theorem keepFirst_mem_split (d : List DirFile) :
    ∀ xs n ys seen, (xs ++ n :: ys).Nodup →
      (n ∈ keepFirst d (xs ++ n :: ys) seen ↔
        (fsize d n ∉ seen ∧ ∀ m ∈ xs, fsize d m ≠ fsize d n)) := by
  intro xs
  induction xs with
  | nil =>
      intro n ys seen hnd
      rcases List.nodup_cons.mp hnd with ⟨hn_not, _⟩
      simp only [List.nil_append]
      by_cases h : fsize d n ∈ seen
      · simp only [keepFirst, if_pos h]
        constructor
        · intro hmem
          exact absurd (keepFirst_sub d ys seen n hmem) hn_not
        · rintro ⟨hns, _⟩
          exact absurd h hns
      · simp only [keepFirst, if_neg h]
        constructor
        · intro _
          exact ⟨h, by simp⟩
        · intro _
          exact List.mem_cons_self _ _
  | cons x xs ih =>
      intro n ys seen hnd
      rcases List.nodup_cons.mp hnd with ⟨hx_not, hrest⟩
      have hnmem : n ∈ xs ++ n :: ys := List.mem_append_right xs (List.mem_cons_self n ys)
      have hnx : n ≠ x := fun e => hx_not (e ▸ hnmem)
      simp only [List.cons_append]
      by_cases hx : fsize d x ∈ seen
      · simp only [keepFirst, if_pos hx]
        rw [ih n ys seen hrest]
        constructor
        · rintro ⟨hns, hall⟩
          refine ⟨hns, ?_⟩
          intro m hm
          rcases List.mem_cons.mp hm with rfl | hm
          · intro heq
            exact hns (heq ▸ hx)
          · exact hall m hm
        · rintro ⟨hns, hall⟩
          exact ⟨hns, fun m hm => hall m (List.mem_cons_of_mem x hm)⟩
      · simp only [keepFirst, if_neg hx]
        rw [List.mem_cons, ih n ys (fsize d x :: seen) hrest]
        constructor
        · rintro (rfl | ⟨hns, hall⟩)
          · exact absurd rfl hnx
          · have h1 : fsize d n ∉ seen := fun hs => hns (List.mem_cons_of_mem _ hs)
            have h2 : fsize d x ≠ fsize d n := fun heq => hns (heq ▸ List.mem_cons_self _ _)
            refine ⟨h1, ?_⟩
            intro m hm
            rcases List.mem_cons.mp hm with rfl | hm
            · exact h2
            · exact hall m hm
        · rintro ⟨hns, hall⟩
          right
          refine ⟨?_, fun m hm => hall m (List.mem_cons_of_mem x hm)⟩
          intro hs
          rcases List.mem_cons.mp hs with heq | hs
          · exact hall x (List.mem_cons_self _ _) heq.symm
          · exact hns hs

/-- Claim C7: rename_files scans the target-format files in ascending
modification-time order; on a duplicate-free directory listing, a file
survives the dedup pass exactly when no earlier file in scan order has
its byte size (the first file of each size is kept, later ones are
deleted), so no two surviving files share an observed byte size. -/
theorem claim_C7_dedup (config : Config) (d : List DirFile)
    (hnd : (d.map DirFile.name).Nodup) :
    (scanOrder config d).Pairwise (fun a b => fmtime d a ≤ fmtime d b) ∧
    (keptFiles config d).Pairwise (fun a b => fsize d a ≠ fsize d b) ∧
    ∀ xs n ys, scanOrder config d = xs ++ n :: ys →
      (n ∈ keptFiles config d ↔ ∀ m ∈ xs, fsize d m ≠ fsize d n) := by
  have hscan_nd : (scanOrder config d).Nodup := by
    have h1 : ((d.map DirFile.name).filter
        (fun n => strEndsWith n config.target_format)).Nodup :=
      hnd.filter _
    exact ((sortByMtime_perm d _).nodup_iff).mpr h1
  refine ⟨sortByMtime_sorted d _, ?_, ?_⟩
  · rw [keptFiles, filter_dupScan_eq_keepFirst d _ [] hscan_nd]
    exact keepFirst_pairwise d _ []
  · intro xs n ys hsplit
    rw [keptFiles, filter_dupScan_eq_keepFirst d _ [] hscan_nd, hsplit]
    have hnd2 : (xs ++ n :: ys).Nodup := hsplit ▸ hscan_nd
    have := keepFirst_mem_split d xs n ys [] hnd2
    simpa using this

/-- Claim C7 witness: of two files with byte size 10 the one with the
earlier modification time survives; the later one is deleted as a
duplicate. -/
theorem claim_C7_witness :
    "b.jpg" ∉ keptFiles defaultConfig
      [⟨"b.jpg", 10, 2⟩, ⟨"a.jpg", 10, 1⟩, ⟨"c.jpg", 7, 3⟩] :=
  fun hmem =>
    ((claim_C7_dedup defaultConfig
        [⟨"b.jpg", 10, 2⟩, ⟨"a.jpg", 10, 1⟩, ⟨"c.jpg", 7, 3⟩] (by decide)).2.2
      ["a.jpg"] "b.jpg" ["c.jpg"] (by decide)).mp hmem "a.jpg" (by decide) (by decide)
